import Mathlib

/-!
Verification of the server-side reverse proxy of the yenisei task-tracking app.

The model is a shallow embedding of the Express server found in
`server/index.ts`, `server/routes.ts` (final revision) and `server/storage.ts`,
together with the shared drizzle schema.  JavaScript values visible to the
handlers (parsed request bodies, JSON payloads) are modelled by `JsVal`;
JavaScript truthiness, `String(...)` coercion, `JSON.stringify`,
`URLSearchParams` serialization and `String.prototype.includes` are embedded
as executable Lean functions.  HTTP header objects are modelled as functions
`String → Option String` (JavaScript objects keyed by header name; Node
lowercases incoming header names, and the `typeof value === 'string'` guards
in the source mean only string-valued headers are ever copied, so the
`string[]` case of Node's header values is elided).  The upstream service is
modelled as an oracle `FetchEnv` mapping each forwarded request to an outcome:
either a response (status, content-type, body text, and the result of
`response.json()`, `none` denoting a rejected JSON-parse promise) or a
rejected fetch promise.
-/

/-- JavaScript values as seen by the request handlers. -/
inductive JsVal where
  | undef
  | jnull
  | jbool (b : Bool)
  | jnum (n : Int)
  | jstr (s : String)
  | jarr (xs : List JsVal)
  | jobj (fields : List (String × JsVal))

/-- JavaScript truthiness (`undefined`, `null`, `false`, `0`, `""` are falsy;
objects and arrays are always truthy). -/
def truthy : JsVal → Bool
  | .undef => false
  | .jnull => false
  | .jbool b => b
  | .jnum n => n != 0
  | .jstr s => s != ""
  | .jarr _ => true
  | .jobj _ => true

/-- Join a list of strings with a separator (`Array.prototype.join`). -/
def joinSep (sep : String) : List String → String
  | [] => ""
  | [s] => s
  | s :: y :: rest => s ++ sep ++ joinSep sep (y :: rest)

mutual
/-- JavaScript `String(v)` coercion. -/
def jsToString : JsVal → String
  | .undef => "undefined"
  | .jnull => "null"
  | .jbool b => cond b "true" "false"
  | .jnum n => toString n
  | .jstr s => s
  | .jarr xs => jsArrToString xs
  | .jobj _ => "[object Object]"

/-- `Array.prototype.toString`: elements joined by commas. -/
def jsArrToString : List JsVal → String
  | [] => ""
  | [x] => jsArrElem x
  | x :: y :: rest => jsArrElem x ++ "," ++ jsArrToString (y :: rest)

/-- An array element under `toString`: `null` and `undefined` print empty. -/
def jsArrElem : JsVal → String
  | .undef => ""
  | .jnull => ""
  | .jbool b => cond b "true" "false"
  | .jnum n => toString n
  | .jstr s => s
  | .jarr xs => jsArrToString xs
  | .jobj _ => "[object Object]"
end

/-- Lower-case hexadecimal digit. -/
def hexDigitChar (n : Nat) : Char :=
  if n < 10 then Char.ofNat (48 + n) else Char.ofNat (87 + n)

/-- JSON string escaping for one character (as `JSON.stringify` does). -/
def escapeJsonChar (c : Char) : List Char :=
  if c = '"' then ['\\', '"']
  else if c = '\\' then ['\\', '\\']
  else if c = '\n' then ['\\', 'n']
  else if c = '\r' then ['\\', 'r']
  else if c = '\t' then ['\\', 't']
  else if c.toNat = 8 then ['\\', 'b']
  else if c.toNat = 12 then ['\\', 'f']
  else if c.toNat < 32 then
    '\\' :: 'u' :: '0' :: '0' :: hexDigitChar (c.toNat / 16) :: [hexDigitChar (c.toNat % 16)]
  else [c]

/-- A JSON string literal with quotes and escapes. -/
def quoteJson (s : String) : String :=
  String.mk ('"' :: s.data.foldr (fun c acc => escapeJsonChar c ++ acc) ['"'])

mutual
/-- `JSON.stringify`.  Callers in the source only apply it behind truthiness
guards, so a top-level `undefined` (which real `JSON.stringify` maps to
`undefined`, not a string) is unreachable; inside arrays it serializes as
`null` and `undefined`-valued object fields are dropped, as in JavaScript. -/
def jsonString : JsVal → String
  | .undef => "null"
  | .jnull => "null"
  | .jbool b => cond b "true" "false"
  | .jnum n => toString n
  | .jstr s => quoteJson s
  | .jarr xs => "[" ++ joinSep "," (jsonElems xs) ++ "]"
  | .jobj fs => "\x7b" ++ joinSep "," (jsonFields fs) ++ "\x7d"

def jsonElems : List JsVal → List String
  | [] => []
  | x :: rest => jsonString x :: jsonElems rest

def jsonFields : List (String × JsVal) → List String
  | [] => []
  | (k, v) :: rest =>
    match v with
    | .undef => jsonFields rest
    | w => (quoteJson k ++ ":" ++ jsonString w) :: jsonFields rest
end

/-- UTF-8 bytes of a code point. -/
def utf8Nat (n : Nat) : List Nat :=
  if n < 128 then [n]
  else if n < 2048 then [192 + n / 64, 128 + n % 64]
  else if n < 65536 then [224 + n / 4096, 128 + (n / 64) % 64, 128 + n % 64]
  else [240 + n / 262144, 128 + (n / 4096) % 64, 128 + (n / 64) % 64, 128 + n % 64]

/-- Upper-case hexadecimal digit (percent-encoding uses upper case). -/
def hexDigitUpper (n : Nat) : Char :=
  if n < 10 then Char.ofNat (48 + n) else Char.ofNat (55 + n)

/-- Percent-encode one byte. -/
def pctByte (b : Nat) : List Char :=
  ['%', hexDigitUpper (b / 16), hexDigitUpper (b % 16)]

/-- Characters `URLSearchParams` leaves unescaped. -/
def formUnreserved (c : Char) : Bool :=
  c.isAlphanum || c == '*' || c == '-' || c == '.' || c == '_'

/-- `application/x-www-form-urlencoded` encoding of one character. -/
def formEncodeChar (c : Char) : List Char :=
  if c = ' ' then ['+']
  else if formUnreserved c then [c]
  else (utf8Nat c.toNat).foldr (fun b acc => pctByte b ++ acc) []

/-- `application/x-www-form-urlencoded` encoding of a string. -/
def formEncode (s : String) : String :=
  String.mk (s.data.foldr (fun c acc => formEncodeChar c ++ acc) [])

/-- `URLSearchParams.prototype.toString`: `k=v` pairs joined with `&`. -/
def urlEncodeParams (ps : List (String × String)) : String :=
  joinSep "&" (ps.map fun p => formEncode p.1 ++ "=" ++ formEncode p.2)

/-- Whether `sub` is a prefix of `l` (character lists). -/
def startsWithChars : List Char → List Char → Bool
  | _, [] => true
  | [], _ :: _ => false
  | a :: as, b :: bs => a == b && startsWithChars as bs

/-- Substring search over character lists. -/
def subSearch : List Char → List Char → Bool
  | [], sub => sub.isEmpty
  | h :: t, sub => startsWithChars (h :: t) sub || subSearch t sub

/-- JavaScript `hay.includes(sub)` for strings. -/
def containsSub (hay sub : String) : Bool := subSearch hay.data sub.data

/-- Association-list lookup (JavaScript property read on a parsed object). -/
def assocLookup : List (String × JsVal) → String → Option JsVal
  | [], _ => none
  | p :: rest, k => if p.1 = k then some p.2 else assocLookup rest k

/-- JavaScript property read `v[k]`; non-objects have no own properties
(the handlers only read properties of parsed JSON objects). -/
def jsGetField (v : JsVal) (k : String) : Option JsVal :=
  match v with
  | .jobj fs => assocLookup fs k
  | _ => none

/-- Association-list update: replace the binding in place, or append
(JavaScript property write / object spread followed by an override). -/
def assocSet (fs : List (String × JsVal)) (k : String) (v : JsVal) : List (String × JsVal) :=
  if fs.any (fun p => p.1 == k) then
    fs.map (fun p => if p.1 = k then (k, v) else p)
  else fs ++ [(k, v)]

/-- JavaScript `{...v, k: nv}` for an object `v` (the only use in the source
spreads a parsed task object). -/
def jsSetField (v : JsVal) (k : String) (nv : JsVal) : JsVal :=
  match v with
  | .jobj fs => .jobj (assocSet fs k nv)
  | _ => .jobj [(k, nv)]

/-- `Object.entries` paired with `String(value)` coercion, as built by the
`URLSearchParams` loops in the proxy.  Arrays and strings enumerate indexed
entries; other primitives have none. -/
def entriesOf : JsVal → List (String × JsVal)
  | .jobj fs => fs
  | .jarr xs => (List.range xs.length).zip xs |>.map fun p => (toString p.1, p.2)
  | .jstr s => (List.range s.data.length).zip s.data |>.map fun p => (toString p.1, .jstr (String.mk [p.2]))
  | _ => []

/-- Entry list coerced to strings, then URL-encoded: the body produced by
`new URLSearchParams(); params.append(key, String(value))`. -/
def urlEncodeEntries (v : JsVal) : String :=
  urlEncodeParams ((entriesOf v).map fun p => (p.1, jsToString p.2))

/-- An incoming Express request as the handlers see it. -/
structure Req where
  method : String
  originalUrl : String
  headers : String → Option String
  body : Option JsVal

/-- Header lookup on the incoming request (`req.headers[k]`). -/
def hdr (req : Req) (k : String) : Option String := req.headers k

/-- The fixed upstream host. -/
def upstreamBase : String := "https://qdr.equiron.com"

/-- `originalUrl.replace(/^\/api/, '')`: the anchored regex removes one
leading occurrence of `/api` and leaves every other string unchanged. -/
def stripApi (s : String) : String :=
  match s.data with
  | '/' :: 'a' :: 'p' :: 'i' :: rest => String.mk rest
  | _ => s

/-- Target URL of the generic proxy handler
(`https://qdr.equiron.com` + stripped original URL, query string included). -/
def targetUrl (u : String) : String := upstreamBase ++ stripApi u

/-- Functional update of a header object (`headers[k] = v`). -/
def upd (m : String → Option String) (k v : String) : String → Option String :=
  fun q => if q = k then some v else m q

/-- Copy one incoming header into the outgoing header object if present
(the `typeof value === 'string'` branch of the safe-header loop). -/
def copyHdr (req : Req) (k : String) (m : String → Option String) : String → Option String :=
  match hdr req k with
  | some v => upd m k v
  | none => m

/-- The JavaScript test `!req.headers['content-type']`: the header is absent
or has an empty (falsy) value. -/
def ctMissing (req : Req) : Prop :=
  hdr req "content-type" = none ∨ hdr req "content-type" = some ""

instance (req : Req) : Decidable (ctMissing req) := by
  unfold ctMissing; infer_instance

/-- The safe-header copy loop of the generic `/api` proxy handler: start
from an empty object and copy `authorization`, `content-type`, `accept`,
`user-agent` from the incoming request when present. -/
def safeCopied (req : Req) : String → Option String :=
  copyHdr req "user-agent" (copyHdr req "accept"
    (copyHdr req "content-type" (copyHdr req "authorization" (fun _ => none))))

/-- The unconditional `authorization` re-copy
(`if (req.headers.authorization) headers['authorization'] = ...`). -/
def authReinforced (req : Req) : String → Option String :=
  match hdr req "authorization" with
  | some v => if v ≠ "" then upd (safeCopied req) "authorization" v else safeCopied req
  | none => safeCopied req

/-- Headers sent upstream by the generic `/api` proxy handler: the copied
safe headers, plus a defaulted `Content-Type: application/json` for bodied
methods without a (truthy) content type. -/
def buildProxyHeaders (req : Req) : String → Option String :=
  if ctMissing req ∧ req.method ≠ "GET" ∧ req.method ≠ "HEAD" then
    upd (authReinforced req) "Content-Type" "application/json"
  else authReinforced req

/-- `req.headers['content-type']?.includes(sub)` (undefined is falsy). -/
def ctIncludes (req : Req) (sub : String) : Bool :=
  match hdr req "content-type" with
  | some v => containsSub v sub
  | none => false

/-- A body value handed to `fetch`: either a string or a raw non-string
JavaScript value (the final `body = req.body` fallback), or the piped
incoming request stream (multipart forwarding in `index.ts`). -/
inductive BodyVal where
  | str (s : String)
  | raw (v : JsVal)
  | stream

/-- The condition of the special form-encoding branch of the generic proxy
handler (routes.ts line 272). -/
def specialBody (req : Req) : Prop :=
  req.method ≠ "GET" ∧ req.method ≠ "HEAD" ∧
    (ctIncludes req "multipart/form-data" = true ∨
     ctIncludes req "application/x-www-form-urlencoded" = true)

instance (req : Req) : Decidable (specialBody req) := by
  unfold specialBody; infer_instance

/-- JavaScript `typeof v === 'object'` (true for objects, arrays and `null`). -/
def typeofObject : JsVal → Bool
  | .jobj _ => true
  | .jarr _ => true
  | .jnull => true
  | _ => false

/-- Truthiness of `req.body` (`undefined` when no parser matched). -/
def bodyTruthy (req : Req) : Bool :=
  match req.body with
  | some v => truthy v
  | none => false

/-- The body the generic `/api` proxy handler passes to `fetch`. -/
def proxyBody (req : Req) : Option BodyVal :=
  if specialBody req then
    some (.str (match req.body with
      | some v =>
        if truthy v && typeofObject v then urlEncodeEntries v
        else if truthy v then jsToString v else ""
      | none => ""))
  else if req.method ≠ "GET" ∧ req.method ≠ "HEAD" ∧ bodyTruthy req = true then
    match req.body with
    | some v =>
      if ctIncludes req "application/json" then some (.str (jsonString v))
      else if ctIncludes req "application/x-www-form-urlencoded" then
        some (.str (urlEncodeEntries v))
      else some (.raw v)
    | none => none
  else none

/-- A request as handed to `fetch`. -/
structure FwdReq where
  url : String
  method : String
  headers : String → Option String
  body : Option BodyVal

/-- The fetch call made by the generic `/api` proxy handler. -/
def apiProxyFwd (req : Req) : FwdReq :=
  { url := targetUrl req.originalUrl
    method := req.method
    headers := buildProxyHeaders req
    body := proxyBody req }

/-- An upstream fetch response as observed through the WHATWG fetch API:
`json` is what the `response.json()` promise resolves to, `none` denoting a
rejected parse promise (a body that is not valid JSON). -/
structure UpResp where
  status : Nat
  contentType : Option String
  text : String
  json : Option JsVal

/-- The reply the server sends to its caller. -/
structure Reply where
  status : Nat
  contentType : Option String
  body : String
deriving DecidableEq

/-- Content type that Express `res.json` sets when none is present. -/
def ctJson : String := "application/json; charset=utf-8"

/-- Content type that Express `res.send` sets for a string body when none is
present. -/
def ctHtml : String := "text/html; charset=utf-8"

/-- `response.headers.get('content-type')?.includes('application/json')`. -/
def respIsJson (r : UpResp) : Bool :=
  match r.contentType with
  | some v => containsSub v "application/json"
  | none => false

/-- `Response.ok`: status in the inclusive range 200–299. -/
def respOk (r : UpResp) : Prop := 200 ≤ r.status ∧ r.status ≤ 299

instance (r : UpResp) : Decidable (respOk r) := by
  unfold respOk; infer_instance

/-- The JSON object `{error: msg}` used by the error replies. -/
def errObj (msg : String) : JsVal := .jobj [("error", .jstr msg)]

/-- Relaying an upstream response to the caller: mirror the status; for a
JSON content type reply with `res.json(data)` (which sets
`application/json`), otherwise reply with `res.send(text)` (which sets
`text/html` since the handler set no content type).  A rejected
`response.json()` promise falls into the route's `.catch`, producing
`eReply`. -/
def relayWith (eReply : Reply) (r : UpResp) : Reply :=
  if respIsJson r then
    match r.json with
    | some v => ⟨r.status, some ctJson, jsonString v⟩
    | none => eReply
  else ⟨r.status, some ctHtml, r.text⟩

/-- Outcome of a `fetch`: a response, or a rejected promise. -/
inductive FetchOutcome where
  | ok (r : UpResp)
  | fail

/-- The upstream service as an oracle from forwarded requests to outcomes. -/
def FetchEnv := FwdReq → FetchOutcome

/-- The generic proxy handler's `.catch` reply. -/
def proxyErrorReply : Reply := ⟨500, some ctJson, jsonString (errObj "External API error")⟩

/-- The special form-encoding branch's `.catch` reply. -/
def specialErrorReply : Reply := ⟨500, some ctJson, jsonString (errObj "Special request failed")⟩

/-- The generic (non-special) proxy fetch chain: relay the response, or
reply 500 `External API error` when the promise chain fails. -/
def proxyOutcomeReply : FetchOutcome → Reply
  | .ok r => relayWith proxyErrorReply r
  | .fail => proxyErrorReply

/-- The reply of the generic `/api` proxy handler. -/
def apiProxyReply (req : Req) (env : FetchEnv) : Reply :=
  if specialBody req then
    match env (apiProxyFwd req) with
    | .ok r => relayWith specialErrorReply r
    | .fail => specialErrorReply
  else proxyOutcomeReply (env (apiProxyFwd req))

/-- The login route's `catch` reply (a thrown error or rejected promise). -/
def loginAuthErrorReply : Reply := ⟨500, some ctJson, jsonString (errObj "Authentication service error")⟩

/-- `req.body.k || ''` as coerced by the `URLSearchParams` constructor. -/
def fieldOrEmpty (b : JsVal) (k : String) : String :=
  match jsGetField b k with
  | some v => if truthy v then jsToString v else ""
  | none => ""

/-- The form fields the login route sends upstream. -/
def loginFormPairs (b : JsVal) : List (String × String) :=
  [("grant_type", "password"),
   ("username", fieldOrEmpty b "username"),
   ("password", fieldOrEmpty b "password"),
   ("scope", ""),
   ("client_id", "string"),
   ("client_secret", "")]

/-- Headers of the login route's upstream fetch. -/
def loginHeaders : String → Option String :=
  upd (upd (fun _ => none) "Content-Type" "application/x-www-form-urlencoded")
    "Accept" "application/json"

/-- The fetch made by `POST /api/auth/login` for a parsed body `b`. -/
def loginFwd (b : JsVal) : FwdReq :=
  { url := "https://qdr.equiron.com/auth/login"
    method := "POST"
    headers := loginHeaders
    body := some (.str (urlEncodeParams (loginFormPairs b))) }

/-- The reply of `POST /api/auth/login`.  With no parsed body the property
read `req.body.username` throws and the `catch` answers 500; on a non-ok
upstream status the caller gets that status with `Authentication failed`;
on ok the upstream JSON is returned (status 200, the Express default). -/
def loginReply (req : Req) (env : FetchEnv) : Reply :=
  match req.body with
  | none => loginAuthErrorReply
  | some b =>
    match env (loginFwd b) with
    | .fail => loginAuthErrorReply
    | .ok r =>
      if respOk r then
        match r.json with
        | some v => ⟨200, some ctJson, jsonString v⟩
        | none => loginAuthErrorReply
      else ⟨r.status, some ctJson, jsonString (errObj "Authentication failed")⟩

/-- The add-to-description route's `catch` reply. -/
def addErrorReply : Reply := ⟨500, some ctJson, jsonString (errObj "Add to description service error")⟩

/-- Headers built by the add-to-description route: `Accept: application/json`
plus the incoming authorization header when truthy. -/
def addHeaders (req : Req) : String → Option String :=
  match hdr req "authorization" with
  | some a =>
    if a ≠ "" then upd (upd (fun _ => none) "Accept" "application/json") "authorization" a
    else upd (fun _ => none) "Accept" "application/json"
  | none => upd (fun _ => none) "Accept" "application/json"

/-- The appended description: `currentDescription` is `task.description || ''`;
when truthy the new text is appended after `"\n\nДобавлено:\n"`, otherwise
the additional text alone is used. -/
def newDescription (task : JsVal) (addText : JsVal) : JsVal :=
  let cd := match jsGetField task "description" with
    | some v => if truthy v then v else .jstr ""
    | none => .jstr ""
  if truthy cd then .jstr (jsToString cd ++ "\n\nДобавлено:\n" ++ jsToString addText)
  else addText

/-- The update payload: with a client-supplied full task, the spread
`{...task, description: newDescription}`; otherwise only the description. -/
def addUpdateData (hasFull : Bool) (task : JsVal) (addText : JsVal) : JsVal :=
  if hasFull then jsSetField task "description" (newDescription task addText)
  else .jobj [("description", newDescription task addText)]

/-- The GET fetch of the add-to-description route. -/
def addGetFwd (taskId : String) (req : Req) : FwdReq :=
  { url := "https://qdr.equiron.com/tasks/" ++ taskId
    method := "GET"
    headers := addHeaders req
    body := none }

/-- The PUT fetch of the add-to-description route. -/
def addPutFwd (taskId : String) (req : Req) (updateData : JsVal) : FwdReq :=
  { url := "https://qdr.equiron.com/tasks/" ++ taskId
    method := "PUT"
    headers := upd (addHeaders req) "Content-Type" "application/json"
    body := some (.str (jsonString updateData)) }

/-- The PUT phase of the add-to-description route. -/
def addPutPhase (taskId : String) (req : Req) (env : FetchEnv)
    (hasFull : Bool) (task addText : JsVal) : Reply :=
  match env (addPutFwd taskId req (addUpdateData hasFull task addText)) with
  | .fail => addErrorReply
  | .ok u =>
    if respOk u then
      match u.json with
      | some v => ⟨200, some ctJson, jsonString v⟩
      | none => addErrorReply
    else ⟨u.status, some ctJson, jsonString (errObj "Failed to update task description")⟩

/-- The reply of `POST /api/tasks/:id/add-to-description`. -/
def addToDescReply (taskId : String) (req : Req) (env : FetchEnv) : Reply :=
  match req.body with
  | none => addErrorReply
  | some b =>
    let addText := (jsGetField b "additionalText").getD .undef
    let fullTask := (jsGetField b "fullTask").getD .undef
    if truthy fullTask then addPutPhase taskId req env true fullTask addText
    else
      match env (addGetFwd taskId req) with
      | .fail => addErrorReply
      | .ok g =>
        if respOk g then
          match g.json with
          | some taskData =>
            let inner := (jsGetField taskData "task").getD .undef
            addPutPhase taskId req env false (if truthy inner then inner else taskData) addText
          | none => addErrorReply
        else ⟨g.status, some ctJson, jsonString (errObj "Failed to fetch task")⟩

/-- Headers of the multipart streaming middleware in `index.ts`
(safe-header copy only; the `content-length` delete is a no-op since that
header is never copied). -/
def multipartHeaders (req : Req) : String → Option String :=
  copyHdr req "user-agent" (copyHdr req "accept"
    (copyHdr req "content-type" (copyHdr req "authorization" (fun _ => none))))

/-- The fetch made by the multipart middleware: the incoming request body is
piped through as a stream. -/
def multipartFwd (req : Req) : FwdReq :=
  { url := targetUrl req.originalUrl
    method := req.method
    headers := multipartHeaders req
    body := some .stream }

/-- The multipart middleware's `.catch` reply. -/
def uploadErrorReply : Reply := ⟨500, some ctJson, jsonString (errObj "File upload failed")⟩

/-- The reply of the multipart middleware: it copies the upstream response
headers (other than encoding/length) before `res.json`/`res.send`, so the
upstream content type is preserved when present. -/
def multipartReply (req : Req) (env : FetchEnv) : Reply :=
  match env (multipartFwd req) with
  | .fail => uploadErrorReply
  | .ok r =>
    if respIsJson r then
      match r.json with
      | some v => ⟨r.status, r.contentType, jsonString v⟩
      | none => uploadErrorReply
    else
      ⟨r.status, (match r.contentType with | some c => some c | none => some ctHtml), r.text⟩

/-- `req.path`: the original URL up to the query string. -/
def pathOf (req : Req) : String :=
  String.mk (req.originalUrl.data.takeWhile (fun c => c ≠ '?'))

/-- Split a character list at `/` delimiters. -/
def splitSlashAux (cur : List Char) : List Char → List String
  | [] => [String.mk cur.reverse]
  | c :: rest =>
    if c = '/' then String.mk cur.reverse :: splitSlashAux [] rest
    else splitSlashAux (c :: cur) rest

/-- Split a path into its `/`-separated segments. -/
def splitSlash (s : String) : List String := splitSlashAux [] s.data

/-- Path segments of the incoming request. -/
def pathSegs (req : Req) : List String := splitSlash (pathOf req)

/-- `authHeader.startsWith('Bearer ')`. -/
def bearerOk (a : String) : Bool := startsWithChars a.data "Bearer ".data

/-- The `requireAdmin` rejection condition:
`!authHeader || !authHeader.startsWith('Bearer ')`. -/
def badAuth (req : Req) : Bool :=
  match hdr req "authorization" with
  | none => true
  | some a => if a = "" then true else !bearerOk a

/-- The `requireAdmin` 401 reply. -/
def unauthorizedReply : Reply := ⟨401, some ctJson, jsonString (errObj "No authorization token")⟩

/-- Non-`/api` requests go to static file serving, out of the model's scope. -/
def staticReply : Reply := ⟨200, none, ""⟩

/-- Express mount matching for `app.use("/api/users", ...)`. -/
def underUsers (segs : List String) : Bool :=
  match segs with
  | "" :: "api" :: "users" :: _ => true
  | _ => false

/-- Express mount matching for `app.use("/api", ...)`. -/
def apiMount (segs : List String) : Bool :=
  match segs with
  | "" :: "api" :: _ => true
  | _ => false

/-- Route matching for `POST /api/tasks/:id/add-to-description`
(`:id` matches one nonempty segment). -/
def addToDescId (segs : List String) : Option String :=
  match segs with
  | ["", "api", "tasks", tid, "add-to-description"] => if tid = "" then none else some tid
  | _ => none

/-- How a request was answered: forwarded upstream (recording the first
fetch made) or answered locally without contacting the upstream service. -/
inductive Handled where
  | forwarded (f : FwdReq) (reply : Reply)
  | localOnly (reply : Reply)

/-- The reply carried by a `Handled` value. -/
def replyOf : Handled → Reply
  | .forwarded _ r => r
  | .localOnly r => r

/-- The login route as a `Handled` value: with no parsed body the handler
throws before any fetch. -/
def loginHandled (req : Req) (env : FetchEnv) : Handled :=
  match req.body with
  | none => .localOnly loginAuthErrorReply
  | some b => .forwarded (loginFwd b) (loginReply req env)

/-- The add-to-description route as a `Handled` value: with no parsed body
the handler throws before any fetch; otherwise the first fetch is the PUT
(full task supplied) or the GET. -/
def addHandled (tid : String) (req : Req) (env : FetchEnv) : Handled :=
  match req.body with
  | none => .localOnly addErrorReply
  | some b =>
    if truthy ((jsGetField b "fullTask").getD .undef) then
      .forwarded
        (addPutFwd tid req (addUpdateData true ((jsGetField b "fullTask").getD .undef)
          ((jsGetField b "additionalText").getD .undef)))
        (addToDescReply tid req env)
    else .forwarded (addGetFwd tid req) (addToDescReply tid req env)

/-- The `/api/users` guard followed by the generic proxy. -/
def usersOrProxy (req : Req) (env : FetchEnv) : Handled :=
  if underUsers (pathSegs req) = true ∧ badAuth req = true then
    .localOnly unauthorizedReply
  else if apiMount (pathSegs req) = true then
    .forwarded (apiProxyFwd req) (apiProxyReply req env)
  else .localOnly staticReply

/-- The server's dispatch over its middleware and routes, in registration
order: the multipart middleware in `index.ts`, then `POST /api/auth/login`,
then `POST /api/tasks/:id/add-to-description`, then the `requireAdmin`
guard on `/api/users`, then the generic `/api` proxy. -/
def dispatch (req : Req) (env : FetchEnv) : Handled :=
  if req.method ≠ "GET" ∧ req.method ≠ "HEAD" ∧ ctIncludes req "multipart/form-data" = true then
    .forwarded (multipartFwd req) (multipartReply req env)
  else if req.method = "POST" ∧ pathSegs req = ["", "api", "auth", "login"] then
    loginHandled req env
  else
    match addToDescId (pathSegs req) with
    | some tid =>
      if req.method = "POST" then addHandled tid req env
      else usersOrProxy req env
    | none => usersOrProxy req env

/-- A stored user row. -/
structure UserRec where
  id : String
  username : String
  email : String
  created_at : Nat
deriving DecidableEq

/-- A stored task row (`tasks` table shape). -/
structure TaskRec where
  id : String
  name : String
  description : Option String
  status : String
  user_id : Option String
  created_at : Nat
  attachments : Option String
deriving DecidableEq

/-- `InsertUser` (insert schema: users minus id and created_at). -/
structure InsertUser where
  username : String
  email : String

/-- `InsertTask` (insert schema: tasks minus id and created_at; `status` is
an unconstrained optional string in the derived zod schema). -/
structure InsertTask where
  name : String
  description : Option String
  status : Option String
  user_id : Option String
  attachments : Option String

/-- The in-memory `MemStorage` state: its two maps. -/
structure MemState where
  users : List (String × UserRec)
  tasks : List (String × TaskRec)

/-- The initial storage (two empty maps). -/
def emptyMemState : MemState := ⟨[], []⟩

/-- Association-list lookup for the storage maps. -/
def strLookup {α : Type} : List (String × α) → String → Option α
  | [], _ => none
  | p :: rest, k => if p.1 = k then some p.2 else strLookup rest k

/-- `x || null` on an optional string field. -/
def orNullStr : Option String → Option String
  | some s => if s = "" then none else some s
  | none => none

/-- `MemStorage.getUser`. -/
def getUser (st : MemState) (id : String) : Option UserRec := strLookup st.users id

/-- `MemStorage.getTask`. -/
def getTask (st : MemState) (id : String) : Option TaskRec := strLookup st.tasks id

/-- `MemStorage.createUser` (`randomUUID` and the clock passed as inputs). -/
def createUser (st : MemState) (newId : String) (now : Nat) (iu : InsertUser) :
    MemState × UserRec :=
  let user : UserRec := ⟨newId, iu.username, iu.email, now⟩
  ({ st with users := st.users ++ [(newId, user)] }, user)

/-- `MemStorage.createTask`: fields default through `||`, in particular
`status: insertTask.status || 'created'`. -/
def createTask (st : MemState) (newId : String) (now : Nat) (it : InsertTask) :
    MemState × TaskRec :=
  let task : TaskRec :=
    { id := newId
      name := it.name
      description := orNullStr it.description
      status := match it.status with
        | some s => if s = "" then "created" else s
        | none => "created"
      user_id := orNullStr it.user_id
      created_at := now
      attachments := orNullStr it.attachments }
  ({ st with tasks := st.tasks ++ [(newId, task)] }, task)

/-- Handling an `/api` request as a state transformer over the storage: no
route handler in `routes.ts` or `index.ts` invokes a storage operation, so
the state passes through untouched. -/
def handleApi (req : Req) (env : FetchEnv) (st : MemState) : MemState × Reply :=
  (st, replyOf (dispatch req env))

/-- A fetch oracle whose promises always reject. -/
def envFail : FetchEnv := fun _ => .fail

/-- An upstream response that echoes the proxy's own error reply shape. -/
def upRespEcho : UpResp :=
  ⟨500, some "application/json", jsonString (errObj "External API error"),
   some (errObj "External API error")⟩

/-- A plain-text upstream response. -/
def upRespText : UpResp := ⟨200, some "text/plain", "hello", none⟩

/-- A JSON upstream response. -/
def upRespJson : UpResp := ⟨201, some "application/json", "\x7b\x7d", some (.jobj [])⟩

/-- A non-ok upstream response with a JSON body. -/
def upRespDenied : UpResp := ⟨401, some "application/json", "", some (errObj "denied")⟩

/-- A fetch oracle that always answers with `upRespDenied`. -/
def envDenied : FetchEnv := fun _ => .ok upRespDenied

/-- A `GET /api/users` request without an authorization header. -/
def reqUsersNoAuth : Req := ⟨"GET", "/api/users", fun _ => none, none⟩

/-- A `GET /api/data` request with no headers and no body. -/
def reqGetData : Req := ⟨"GET", "/api/data", fun _ => none, none⟩

/-- A POST whose content type contains both the URL-encoded and the JSON
media type as substrings, with a parsed object body. -/
def reqFormJson : Req :=
  ⟨"POST", "/api/data",
   fun k =>
     if k = "content-type" then
       some "application/x-www-form-urlencoded; profile=application/json"
     else none,
   some (.jobj [("a", .jstr "1")])⟩

/-- A POST with a JSON content type and a parsed object body. -/
def reqJsonPost : Req :=
  ⟨"POST", "/api/data",
   fun k => if k = "content-type" then some "application/json" else none,
   some (.jobj [("a", .jstr "1")])⟩

/-- A parsed login body with username and password fields. -/
def loginFields : List (String × JsVal) := [("username", .jstr "u"), ("password", .jstr "p")]

/-- A `POST /api/auth/login` request carrying `loginFields`. -/
def reqLogin : Req := ⟨"POST", "/api/auth/login", fun _ => none, some (.jobj loginFields)⟩

/-- A parsed full task object with a non-empty description. -/
def taskFieldsEx : List (String × JsVal) :=
  [("id", .jstr "7"), ("name", .jstr "n"), ("description", .jstr "old")]

/-- An insert whose status is not one of the three documented values. -/
def insertBogus : InsertTask := ⟨"t", none, some "archived", none, none⟩

/-- String concatenation is associative. -/
theorem strAssoc (a b c : String) : (a ++ b) ++ c = a ++ (b ++ c) :=
  String.ext (by rw [String.data_append, String.data_append, String.data_append,
    String.data_append, List.append_assoc])

/-- Removing the anchored `/api` prefix. -/
theorem stripApi_append (r : String) : stripApi ("/api" ++ r) = r := rfl

/-- Claim C1: a request whose URL is `/api/P` with query string `Q` is
forwarded to `https://qdr.equiron.com/P?Q` with its method preserved: only
the `/api` prefix is removed, and the rest of the path and the entire query
string are unchanged. -/
theorem c1_proxy_target (m : String) (hs : String → Option String)
    (b : Option JsVal) (P Q : String) :
    (apiProxyFwd ⟨m, "/api/" ++ P ++ "?" ++ Q, hs, b⟩).url
        = "https://qdr.equiron.com/" ++ P ++ "?" ++ Q
      ∧ (apiProxyFwd ⟨m, "/api/" ++ P ++ "?" ++ Q, hs, b⟩).method = m :=
  ⟨rfl, rfl⟩

/-- Pointwise evaluation of a header-object update. -/
theorem upd_eval (m : String → Option String) (k v q : String) :
    upd m k v q = if q = k then some v else m q := rfl

/-- A header copy leaves other keys unchanged. -/
theorem copyHdr_ne (req : Req) (k : String) (m : String → Option String) (q : String)
    (h : q ≠ k) : copyHdr req k m q = m q := by
  unfold copyHdr
  cases hdr req k
  · rfl
  · simp [upd_eval, h]

/-- A header copy at its own key yields the incoming value when present. -/
theorem copyHdr_at_some (req : Req) (k : String) (m : String → Option String)
    (v : String) (h : hdr req k = some v) : copyHdr req k m k = some v := by
  unfold copyHdr
  rw [h]
  simp [upd_eval]

/-- A header copy at its own key defers to the accumulator when absent. -/
theorem copyHdr_at_none (req : Req) (k : String) (m : String → Option String)
    (h : hdr req k = none) : copyHdr req k m k = m k := by
  unfold copyHdr
  rw [h]

/-- Claim C4: handling any request through the server's dispatch leaves the
in-memory storage unchanged: the users map and the tasks map of `MemStorage`
are identical before and after, because no route handler invokes a storage
operation. -/
theorem c4_storage_frame (req : Req) (env : FetchEnv) (st : MemState) :
    (handleApi req env st).1.users = st.users ∧ (handleApi req env st).1.tasks = st.tasks :=
  ⟨rfl, rfl⟩

/-- Claim C10 counterexample: the upstream can itself answer 500 with the
JSON body `{error: External API error}`; the proxy then mirrors exactly the
reply that the claim reserves for fetch failures, although the fetch
succeeded, so the proxy does not respond this way only on a failure. -/
theorem c10_counterexample :
    proxyOutcomeReply (FetchOutcome.ok upRespEcho) = proxyErrorReply
      ∧ FetchOutcome.ok upRespEcho ≠ FetchOutcome.fail := by
  refine ⟨rfl, fun h => FetchOutcome.noConfusion h⟩

/-- Claim C10 (amended): for every request handled by the generic proxy
branch, if the upstream fetch promise rejects, the proxy responds 500 with
the JSON body `{error: External API error}` (the converse does not hold:
the upstream can produce the same reply itself). -/
theorem c10_amended (req : Req) (env : FetchEnv)
    (hs : ¬ specialBody req) (h : env (apiProxyFwd req) = FetchOutcome.fail) :
    apiProxyReply req env = ⟨500, some ctJson, jsonString (errObj "External API error")⟩ := by
  unfold apiProxyReply
  rw [if_neg hs, h]
  rfl

/-- Claim C10 amended, witnessed at a concrete request and failing oracle. -/
theorem c10_witness :
    apiProxyReply reqGetData envFail
      = ⟨500, some ctJson, jsonString (errObj "External API error")⟩ :=
  c10_amended reqGetData envFail (by decide) rfl

/-- Claim C3 counterexample: a `text/plain` upstream response is mirrored in
status, but the proxy's reply carries Express's default `text/html` content
type, not the upstream's content type. -/
theorem c3_counterexample :
    (proxyOutcomeReply (FetchOutcome.ok upRespText)).status = upRespText.status
  ∧ upRespText.contentType = some "text/plain"
  ∧ (proxyOutcomeReply (FetchOutcome.ok upRespText)).contentType = some ctHtml
  ∧ (proxyOutcomeReply (FetchOutcome.ok upRespText)).contentType ≠ upRespText.contentType := by
  refine ⟨rfl, rfl, rfl, by decide⟩

/-- Claim C3 (amended): for every upstream response whose body parses when
its content type is JSON, the generic proxy mirrors the upstream status
code; a JSON upstream response is returned as JSON, while any other
upstream response is returned with its body text under Express's default
`text/html` content type rather than the upstream's content type. -/
theorem c3_amended (r : UpResp) (hp : respIsJson r = true → r.json.isSome = true) :
    (proxyOutcomeReply (FetchOutcome.ok r)).status = r.status
  ∧ (respIsJson r = true → (proxyOutcomeReply (FetchOutcome.ok r)).contentType = some ctJson)
  ∧ (respIsJson r = false →
      (proxyOutcomeReply (FetchOutcome.ok r)).contentType = some ctHtml
    ∧ (proxyOutcomeReply (FetchOutcome.ok r)).body = r.text) := by
  simp only [proxyOutcomeReply, relayWith]
  cases hj : respIsJson r
  · simp [hj]
  · obtain ⟨v, hv⟩ := Option.isSome_iff_exists.mp (hp hj)
    simp [hj, hv]

/-- Claim C3 amended, witnessed at a concrete JSON upstream response. -/
theorem c3_witness :
    (proxyOutcomeReply (FetchOutcome.ok upRespJson)).status = upRespJson.status :=
  (c3_amended upRespJson (by decide)).1

/-- Claim C7 counterexample: `createTask` accepts an insert whose status is
`archived` and stores it unchanged, so a stored task's status is not always
one of the three documented values. -/
theorem c7_counterexample :
    (createTask emptyMemState "id1" 0 insertBogus).2.status = "archived"
  ∧ (createTask emptyMemState "id1" 0 insertBogus).2.status
      ∉ (["created", "assigned", "done"] : List String) := by
  refine ⟨rfl, by decide⟩

/-- Claim C7 (amended): `createTask` does not validate the status; the
stored status equals the provided one when truthy and defaults to `created`
otherwise.  Hence whenever the insert's status is absent, empty, or one of
the three fixed values, the stored task's status is one of the three fixed
values, and it is `created` when the insert provides none. -/
theorem c7_amended (st : MemState) (newId : String) (now : Nat) (it : InsertTask)
    (h : it.status = none ∨ it.status = some "" ∨ it.status = some "created" ∨
         it.status = some "assigned" ∨ it.status = some "done") :
    (createTask st newId now it).2.status ∈ (["created", "assigned", "done"] : List String)
  ∧ (it.status = none → (createTask st newId now it).2.status = "created") := by
  constructor
  · rcases h with h | h | h | h | h <;> simp [createTask, h]
  · intro hn
    simp [createTask, hn]

/-- Claim C7 amended, witnessed at an insert providing no status. -/
theorem c7_witness :
    (createTask emptyMemState "id2" 0 (InsertTask.mk "t" none none none none)).2.status
      ∈ (["created", "assigned", "done"] : List String) :=
  (c7_amended emptyMemState "id2" 0 (InsertTask.mk "t" none none none none) (Or.inl rfl)).1

/-- The safe-header copy holds nothing at keys other than the four safe
header names. -/
theorem safeCopied_ne (req : Req) (q : String)
    (h1 : q ≠ "authorization") (h2 : q ≠ "content-type")
    (h3 : q ≠ "accept") (h4 : q ≠ "user-agent") :
    safeCopied req q = none := by
  unfold safeCopied
  rw [copyHdr_ne req _ _ _ h4, copyHdr_ne req _ _ _ h3, copyHdr_ne req _ _ _ h2,
    copyHdr_ne req _ _ _ h1]

/-- The safe-header copy reproduces the incoming value at each safe key. -/
theorem safeCopied_at (req : Req) (q : String)
    (hq : q ∈ (["authorization", "content-type", "accept", "user-agent"] : List String)) :
    safeCopied req q = hdr req q := by
  unfold safeCopied
  simp only [List.mem_cons, List.not_mem_nil, or_false] at hq
  rcases hq with hq | hq | hq | hq
  · subst hq
    rw [copyHdr_ne req _ _ _ (by decide), copyHdr_ne req _ _ _ (by decide),
      copyHdr_ne req _ _ _ (by decide)]
    rcases e : hdr req "authorization" with _ | v
    · rw [copyHdr_at_none req _ _ e]
    · rw [copyHdr_at_some req _ _ v e]
  · subst hq
    rw [copyHdr_ne req _ _ _ (by decide), copyHdr_ne req _ _ _ (by decide)]
    rcases e : hdr req "content-type" with _ | v
    · rw [copyHdr_at_none req _ _ e, copyHdr_ne req _ _ _ (by decide)]
    · rw [copyHdr_at_some req _ _ v e]
  · subst hq
    rw [copyHdr_ne req _ _ _ (by decide)]
    rcases e : hdr req "accept" with _ | v
    · rw [copyHdr_at_none req _ _ e, copyHdr_ne req _ _ _ (by decide),
        copyHdr_ne req _ _ _ (by decide)]
    · rw [copyHdr_at_some req _ _ v e]
  · subst hq
    rcases e : hdr req "user-agent" with _ | v
    · rw [copyHdr_at_none req _ _ e, copyHdr_ne req _ _ _ (by decide),
        copyHdr_ne req _ _ _ (by decide), copyHdr_ne req _ _ _ (by decide)]
    · rw [copyHdr_at_some req _ _ v e]

/-- The authorization re-copy holds nothing at keys other than the four
safe header names. -/
theorem authReinforced_ne (req : Req) (q : String)
    (h1 : q ≠ "authorization") (h2 : q ≠ "content-type")
    (h3 : q ≠ "accept") (h4 : q ≠ "user-agent") :
    authReinforced req q = none := by
  unfold authReinforced
  rcases e : hdr req "authorization" with _ | a
  · exact safeCopied_ne req q h1 h2 h3 h4
  · show (if a ≠ "" then upd (safeCopied req) "authorization" a else safeCopied req) q = none
    by_cases ha : a ≠ ""
    · rw [if_pos ha, upd_eval, if_neg h1]
      exact safeCopied_ne req q h1 h2 h3 h4
    · rw [if_neg ha]
      exact safeCopied_ne req q h1 h2 h3 h4

/-- The authorization re-copy reproduces every safe incoming header. -/
theorem authReinforced_at (req : Req) (q : String)
    (hq : q ∈ (["authorization", "content-type", "accept", "user-agent"] : List String)) :
    authReinforced req q = hdr req q := by
  unfold authReinforced
  rcases e : hdr req "authorization" with _ | a
  · exact safeCopied_at req q hq
  · show (if a ≠ "" then upd (safeCopied req) "authorization" a else safeCopied req) q = hdr req q
    by_cases ha : a ≠ ""
    · by_cases hqa : q = "authorization"
      · subst hqa
        rw [if_pos ha, upd_eval, if_pos rfl, e]
      · rw [if_pos ha, upd_eval, if_neg hqa]
        exact safeCopied_at req q hq
    · rw [if_neg ha]
      exact safeCopied_at req q hq

/-- Evaluation of the proxy headers at the defaulted `Content-Type` key. -/
theorem bph_ct (req : Req) :
    buildProxyHeaders req "Content-Type" =
      if ctMissing req ∧ req.method ≠ "GET" ∧ req.method ≠ "HEAD" then
        some "application/json"
      else none := by
  unfold buildProxyHeaders
  by_cases hc : ctMissing req ∧ req.method ≠ "GET" ∧ req.method ≠ "HEAD"
  · rw [if_pos hc, if_pos hc, upd_eval, if_pos rfl]
  · rw [if_neg hc, if_neg hc]
    exact authReinforced_ne req _ (by decide) (by decide) (by decide) (by decide)

/-- Evaluation of the proxy headers at each safe (lower-case) key. -/
theorem bph_safe (req : Req) (q : String)
    (hq : q ∈ (["authorization", "content-type", "accept", "user-agent"] : List String)) :
    buildProxyHeaders req q = hdr req q := by
  have hne : q ≠ "Content-Type" := by
    have hq2 := hq
    simp only [List.mem_cons, List.not_mem_nil, or_false] at hq2
    rcases hq2 with hq2 | hq2 | hq2 | hq2 <;> subst hq2 <;> decide
  unfold buildProxyHeaders
  split
  · rw [upd_eval, if_neg hne]
    exact authReinforced_at req q hq
  · exact authReinforced_at req q hq

/-- Evaluation of the proxy headers away from all five possible keys. -/
theorem bph_none (req : Req) (q : String)
    (h0 : q ≠ "Content-Type") (h1 : q ≠ "authorization") (h2 : q ≠ "content-type")
    (h3 : q ≠ "accept") (h4 : q ≠ "user-agent") :
    buildProxyHeaders req q = none := by
  unfold buildProxyHeaders
  split
  · rw [upd_eval, if_neg h0]
    exact authReinforced_ne req q h1 h2 h3 h4
  · exact authReinforced_ne req q h1 h2 h3 h4

/-- Claim C2: the headers the generic proxy sends upstream form a subset of
the whitelist `authorization`, `content-type`, `accept`, `user-agent`, plus
the defaulted `Content-Type: application/json` exactly when the incoming
request has no (truthy) content type and its method is neither GET nor
HEAD; `cookie` is never forwarded, and each forwarded safe header carries
the incoming value unchanged. -/
theorem c2_headers (req : Req) :
    (∀ k v, buildProxyHeaders req k = some v →
        k ∈ (["authorization", "content-type", "accept", "user-agent",
              "Content-Type"] : List String))
  ∧ buildProxyHeaders req "cookie" = none
  ∧ (buildProxyHeaders req "Content-Type" = some "application/json" ↔
      ctMissing req ∧ req.method ≠ "GET" ∧ req.method ≠ "HEAD")
  ∧ (∀ k, k ∈ (["authorization", "content-type", "accept", "user-agent"] : List String) →
        buildProxyHeaders req k = hdr req k) := by
  refine ⟨?_, ?_, ?_, fun k hk => bph_safe req k hk⟩
  · intro k v h
    by_cases e0 : k = "Content-Type"
    · simp [e0]
    by_cases e1 : k = "authorization"
    · simp [e1]
    by_cases e2 : k = "content-type"
    · simp [e2]
    by_cases e3 : k = "accept"
    · simp [e3]
    by_cases e4 : k = "user-agent"
    · simp [e4]
    rw [bph_none req k e0 e1 e2 e3 e4] at h
    exact Option.noConfusion h
  · exact bph_none req "cookie" (by decide) (by decide) (by decide) (by decide) (by decide)
  · rw [bph_ct req]
    by_cases hc : ctMissing req ∧ req.method ≠ "GET" ∧ req.method ≠ "HEAD"
    · rw [if_pos hc]
      simp [hc]
    · rw [if_neg hc]
      simp [hc]

/-- Claim C2, witnessed at a concrete request: the JSON POST carries its
content type through unchanged, forwards no cookie, and gets no defaulted
`Content-Type`. -/
theorem c2_witness :
    buildProxyHeaders reqJsonPost "content-type" = some "application/json"
  ∧ buildProxyHeaders reqJsonPost "cookie" = none :=
  ⟨((c2_headers reqJsonPost).2.2.2 "content-type" (by decide)).trans rfl,
   (c2_headers reqJsonPost).2.1⟩

/-- The users guard: a locally answered 401 comes exactly from the
`requireAdmin` rejection. -/
theorem usersOrProxy_local (req : Req) (env : FetchEnv) (r : Reply)
    (hd : usersOrProxy req env = Handled.localOnly r) (h401 : r.status = 401) :
    underUsers (pathSegs req) = true ∧ badAuth req = true ∧ r = unauthorizedReply := by
  unfold usersOrProxy at hd
  split at hd
  case isTrue h =>
    cases hd
    exact ⟨h.1, h.2, rfl⟩
  case isFalse h =>
    split at hd
    · exact Handled.noConfusion hd
    · cases hd
      exact absurd h401 (by decide)

/-- Claim C6 counterexample: a `GET /api/users` request with no
authorization header is answered 401 `No authorization token` locally,
without being forwarded upstream, so the server does reject requests on
authorization grounds itself. -/
theorem c6_counterexample :
    dispatch reqUsersNoAuth envFail = Handled.localOnly unauthorizedReply
  ∧ unauthorizedReply.status = 401 :=
  ⟨rfl, rfl⟩

/-- Claim C6 (amended): the only requests the server answers with an
authorization error without forwarding upstream are `/api/users` requests
whose authorization header is missing or not a Bearer token; those receive
exactly the 401 `No authorization token` reply. -/
theorem c6_amended (req : Req) (env : FetchEnv) (r : Reply)
    (hd : dispatch req env = Handled.localOnly r) (h401 : r.status = 401) :
    underUsers (pathSegs req) = true ∧ badAuth req = true ∧ r = unauthorizedReply := by
  unfold dispatch at hd
  split at hd
  · exact Handled.noConfusion hd
  split at hd
  · unfold loginHandled at hd
    split at hd
    · cases hd
      exact absurd h401 (by decide)
    · exact Handled.noConfusion hd
  split at hd
  · split at hd
    · unfold addHandled at hd
      split at hd
      · cases hd
        exact absurd h401 (by decide)
      · split at hd
        · exact Handled.noConfusion hd
        · exact Handled.noConfusion hd
    · exact usersOrProxy_local req env r hd h401
  · exact usersOrProxy_local req env r hd h401

/-- Claim C6 amended, witnessed at the concrete rejected request. -/
theorem c6_witness :
    underUsers (pathSegs reqUsersNoAuth) = true ∧ badAuth reqUsersNoAuth = true
  ∧ unauthorizedReply = unauthorizedReply :=
  c6_amended reqUsersNoAuth envFail unauthorizedReply rfl rfl

/-- Lookup after an in-place map-update finds the new value when the key
occurs in the list. -/
theorem assocMapFound (fs : List (String × JsVal)) (k : String) (v : JsVal)
    (h : (fs.any fun p => p.1 == k) = true) :
    assocLookup (fs.map (fun p => if p.1 = k then (k, v) else p)) k = some v := by
  induction fs with
  | nil => simp at h
  | cons p t ih =>
    by_cases hpk : p.1 = k
    · simp [assocLookup, hpk]
    · simp only [List.any_cons, Bool.or_eq_true, beq_iff_eq] at h
      rcases h with h | h
    
      · exact absurd h hpk
      · simp [assocLookup, hpk, ih h]

/-- Lookup after appending a fresh binding finds it when the key occurs
nowhere in the list. -/
theorem assocAppSelf (fs : List (String × JsVal)) (k : String) (v : JsVal)
    (h : ¬ (fs.any fun p => p.1 == k) = true) :
    assocLookup (fs ++ [(k, v)]) k = some v := by
  induction fs with
  | nil => simp [assocLookup]
  | cons p t ih =>
    simp only [List.any_cons, Bool.or_eq_true, beq_iff_eq] at h
    push_neg at h
    simp [assocLookup, h.1, ih (by simp [h.2])]

/-- Updating an association list binds the key to the new value. -/
theorem assocSet_self (fs : List (String × JsVal)) (k : String) (v : JsVal) :
    assocLookup (assocSet fs k v) k = some v := by
  rw [assocSet]
  split
  case isTrue h => exact assocMapFound fs k v h
  case isFalse h => exact assocAppSelf fs k v h

/-- An in-place map-update does not affect other keys. -/
theorem assocMap_ne (fs : List (String × JsVal)) (k : String) (v : JsVal) (q : String)
    (hq : q ≠ k) :
    assocLookup (fs.map (fun p => if p.1 = k then (k, v) else p)) q = assocLookup fs q := by
  induction fs with
  | nil => simp [assocLookup]
  | cons p t ih =>
    by_cases hpk : p.1 = k
    · simp [assocLookup, hpk, Ne.symm hq, ih]
    · by_cases hpq : p.1 = q <;> simp [assocLookup, hpk, hpq, hq, ih]

/-- Appending a fresh binding does not affect other keys. -/
theorem assocApp_ne (fs : List (String × JsVal)) (k : String) (v : JsVal) (q : String)
    (hq : q ≠ k) :
    assocLookup (fs ++ [(k, v)]) q = assocLookup fs q := by
  induction fs with
  | nil => simp [assocLookup, Ne.symm hq]
  | cons p t ih => by_cases hpq : p.1 = q <;> simp [assocLookup, hpq, ih]

/-- Updating an association list does not affect other keys. -/
theorem assocSet_ne (fs : List (String × JsVal)) (k : String) (v : JsVal) (q : String)
    (hq : q ≠ k) : assocLookup (assocSet fs k v) q = assocLookup fs q := by
  rw [assocSet]
  split
  · exact assocMap_ne fs k v q hq
  · exact assocApp_ne fs k v q hq

/-- Unfolding the login reply once the parsed body is known. -/
theorem loginReply_some (req : Req) (env : FetchEnv) (b : JsVal)
    (hb : req.body = some b) :
    loginReply req env =
      match env (loginFwd b) with
      | FetchOutcome.fail => loginAuthErrorReply
      | FetchOutcome.ok r =>
        if respOk r then
          match r.json with
          | some v => ⟨200, some ctJson, jsonString v⟩
          | none => loginAuthErrorReply
        else ⟨r.status, some ctJson, jsonString (errObj "Authentication failed")⟩ := by
  unfold loginReply
  rw [hb]

/-- Claim C5 counterexample: a POST whose content type contains both the
URL-encoded and the JSON media type as substrings takes the form-encoding
branch, so its body is sent URL-encoded and not as the JSON serialization
the claim requires for any content type that includes `application/json`. -/
theorem c5_counterexample :
    reqFormJson.method = "POST"
  ∧ reqFormJson.body = some (JsVal.jobj [("a", JsVal.jstr "1")])
  ∧ ctIncludes reqFormJson "application/json" = true
  ∧ proxyBody reqFormJson = some (BodyVal.str "a=1")
  ∧ jsonString (JsVal.jobj [("a", JsVal.jstr "1")]) ≠ "a=1" := by
  refine ⟨rfl, rfl, by decide, rfl, by decide⟩

/-- Claim C5 (amended): for a forwarded non-GET, non-HEAD request with a
truthy parsed body, if the content type includes `application/json` and
includes neither `multipart/form-data` nor
`application/x-www-form-urlencoded`, the body sent upstream is the JSON
serialization of the parsed body; if the content type includes
`multipart/form-data` or `application/x-www-form-urlencoded` and the parsed
body is an object, the body sent upstream is the URL-encoded entry string
with every value coerced to a string; for GET and HEAD requests no body is
sent upstream. -/
theorem c5_amended (req : Req) (v : JsVal)
    (hm : req.method ≠ "GET") (hh : req.method ≠ "HEAD") (hb : req.body = some v) :
    (ctIncludes req "multipart/form-data" = false →
     ctIncludes req "application/x-www-form-urlencoded" = false →
     ctIncludes req "application/json" = true →
     truthy v = true →
     proxyBody req = some (.str (jsonString v)))
  ∧ ((ctIncludes req "multipart/form-data" = true ∨
      ctIncludes req "application/x-www-form-urlencoded" = true) →
     typeofObject v = true → truthy v = true →
     proxyBody req = some (.str (urlEncodeEntries v)))
  ∧ (∀ r2 : Req, (r2.method = "GET" ∨ r2.method = "HEAD") → proxyBody r2 = none) := by
  refine ⟨?_, ?_, ?_⟩
  · intro hmu hfu hj htr
    have hns : ¬ specialBody req := by
      rintro ⟨-, -, h | h⟩
      · rw [hmu] at h
        exact Bool.noConfusion h
      · rw [hfu] at h
        exact Bool.noConfusion h
    have hpos : req.method ≠ "GET" ∧ req.method ≠ "HEAD" ∧ bodyTruthy req = true := by
      refine ⟨hm, hh, ?_⟩
      unfold bodyTruthy
      rw [hb]
      exact htr
    unfold proxyBody
    rw [if_neg hns, if_pos hpos, hb]
    simp only [if_pos hj]
  · intro hsp hto htr
    have hs : specialBody req := ⟨hm, hh, hsp⟩
    unfold proxyBody
    rw [if_pos hs, hb]
    simp [htr, hto]
  · intro r2 h2
    have hns : ¬ specialBody r2 := by
      rcases h2 with h | h
      · exact fun hs => hs.1 h
      · exact fun hs => hs.2.1 h
    have hn2 : ¬ (r2.method ≠ "GET" ∧ r2.method ≠ "HEAD" ∧ bodyTruthy r2 = true) := by
      rcases h2 with h | h
      · exact fun hc => hc.1 h
      · exact fun hc => hc.2.1 h
    unfold proxyBody
    rw [if_neg hns, if_neg hn2]

/-- Claim C5 amended, witnessed at a concrete JSON POST. -/
theorem c5_witness :
    proxyBody reqJsonPost
      = some (BodyVal.str (jsonString (JsVal.jobj [("a", JsVal.jstr "1")]))) :=
  ((c5_amended reqJsonPost (JsVal.jobj [("a", JsVal.jstr "1")])
    (by decide) (by decide) rfl).1) (by decide) (by decide) (by decide) rfl

/-- Claim C8: the login route posts a form-URL-encoded body to
`/auth/login` upstream containing `grant_type=password` and the username
and password from the JSON body (empty when absent), and a non-ok upstream
answer is returned to the caller with the upstream status and the body
`{error: Authentication failed}`. -/
theorem c8_login (fs : List (String × JsVal)) (env : FetchEnv) :
    (loginFwd (JsVal.jobj fs)).url = "https://qdr.equiron.com/auth/login"
  ∧ (loginFwd (JsVal.jobj fs)).method = "POST"
  ∧ (loginFwd (JsVal.jobj fs)).headers "Content-Type"
      = some "application/x-www-form-urlencoded"
  ∧ (loginFwd (JsVal.jobj fs)).body
      = some (.str (urlEncodeParams (loginFormPairs (JsVal.jobj fs))))
  ∧ ("grant_type", "password") ∈ loginFormPairs (JsVal.jobj fs)
  ∧ (assocLookup fs "username" = none →
      ("username", "") ∈ loginFormPairs (JsVal.jobj fs))
  ∧ (∀ u : String, assocLookup fs "username" = some (.jstr u) → u ≠ "" →
      ("username", u) ∈ loginFormPairs (JsVal.jobj fs))
  ∧ (assocLookup fs "password" = none →
      ("password", "") ∈ loginFormPairs (JsVal.jobj fs))
  ∧ (∀ p : String, assocLookup fs "password" = some (.jstr p) → p ≠ "" →
      ("password", p) ∈ loginFormPairs (JsVal.jobj fs))
  ∧ (∀ req : Req, req.body = some (JsVal.jobj fs) → ∀ r : UpResp,
      env (loginFwd (JsVal.jobj fs)) = FetchOutcome.ok r → ¬ respOk r →
      loginReply req env
        = ⟨r.status, some ctJson, jsonString (errObj "Authentication failed")⟩) := by
  refine ⟨rfl, rfl, rfl, rfl, ?_, ?_, ?_, ?_, ?_, ?_⟩
  · simp [loginFormPairs]
  · intro h
    simp [loginFormPairs, fieldOrEmpty, jsGetField, h]
  · intro u hu hne
    simp [loginFormPairs, fieldOrEmpty, jsGetField, hu, truthy, hne, jsToString]
  · intro h
    simp [loginFormPairs, fieldOrEmpty, jsGetField, h]
  · intro p hp hne
    simp [loginFormPairs, fieldOrEmpty, jsGetField, hp, truthy, hne, jsToString]
  · intro req hb r he hok
    rw [loginReply_some req env (JsVal.jobj fs) hb, he]
    simp only [if_neg hok]

/-- Claim C8, witnessed at a concrete login request denied upstream. -/
theorem c8_witness :
    loginReply reqLogin envDenied
      = ⟨401, some ctJson, jsonString (errObj "Authentication failed")⟩ :=
  ((c8_login loginFields envDenied).2.2.2.2.2.2.2.2.2) reqLogin rfl upRespDenied rfl
    (by decide)

/-- Claim C9: the description sent upstream equals the existing description
followed by the marker line and the additional text when the existing
description is non-empty, and the additional text alone when it is empty or
absent; with a client-supplied full task, the update carries the new
description and leaves every other field of the task unchanged. -/
theorem c9_description (tfs : List (String × JsVal)) (a : String) :
    ((assocLookup tfs "description" = none ∨
      assocLookup tfs "description" = some (.jstr "")) →
      newDescription (JsVal.jobj tfs) (.jstr a) = .jstr a)
  ∧ (∀ d : String, assocLookup tfs "description" = some (.jstr d) → d ≠ "" →
      newDescription (JsVal.jobj tfs) (.jstr a)
        = .jstr (d ++ "\n\nДобавлено:\n" ++ a))
  ∧ jsGetField (addUpdateData true (JsVal.jobj tfs) (.jstr a)) "description"
      = some (newDescription (JsVal.jobj tfs) (.jstr a))
  ∧ (∀ k, k ≠ "description" →
      jsGetField (addUpdateData true (JsVal.jobj tfs) (.jstr a)) k
        = jsGetField (JsVal.jobj tfs) k) := by
  refine ⟨?_, ?_, ?_, ?_⟩
  · intro h
    unfold newDescription
    rcases h with h | h <;> simp [jsGetField, h, truthy]
  · intro d hd hne
    unfold newDescription
    simp [jsGetField, hd, truthy, hne, jsToString]
  · simp [addUpdateData, jsSetField, jsGetField, assocSet_self]
  · intro k hk
    simp [addUpdateData, jsSetField, jsGetField, assocSet_ne _ _ _ _ hk]

/-- Claim C9, witnessed at a concrete task with a non-empty description. -/
theorem c9_witness :
    newDescription (JsVal.jobj taskFieldsEx) (.jstr "more")
      = .jstr "old\n\nДобавлено:\nmore" :=
  (c9_description taskFieldsEx "more").2.1 "old" rfl (by decide)
